import Mathlib

/-!
Verification of the Agri-Agents voice-agent bridge.

This file gives a shallow embedding of the per-call session orchestrator
(src/Twilio/websocket.js), the LLM request builder (src/services/llm.service.js),
the TTS retry wrapper (src/services/tts.service.js) and the audio codec layer
(src/Utils/Utility.js), and proves or refutes the behavioural claims of the
design document.

Conventions of the embedding:
- byte buffers are modelled as List Nat (one entry per byte);
- JS strings are modelled as Lean String or List Char; string length is the
  codepoint count (equal to the UTF-16 unit count on all inputs considered);
- asynchronous handlers become pure transition functions from session state to
  session state plus a list of emitted pipeline actions;
- fallible provider calls are modelled by explicit outcome values, and JS
  try/catch by explicit handling of the throwing outcome.
-/

namespace AgriAgents

/-! ## JS string primitives -/

/-- Code points treated as whitespace by the JS regexp class backslash-s,
by String.prototype.trim and by split on whitespace runs. -/
def wsCodes : List Nat :=
  [9, 10, 11, 12, 13, 32, 160, 0x1680, 0x2000, 0x2001, 0x2002, 0x2003, 0x2004,
   0x2005, 0x2006, 0x2007, 0x2008, 0x2009, 0x200a, 0x2028, 0x2029, 0x202f,
   0x205f, 0x3000, 0xfeff]

/-- Whether a character is JS whitespace. -/
def isWsChar (c : Char) : Bool := decide (c.toNat ∈ wsCodes)

/-- JS String.prototype.trim on a character list. -/
def jsTrimL (l : List Char) : List Char :=
  ((l.dropWhile isWsChar).reverse.dropWhile isWsChar).reverse

/-- JS String.prototype.trim. -/
def jsTrimS (s : String) : String := String.mk (jsTrimL s.data)

/-- Per-character ASCII lowercasing, the restriction of JS toLowerCase used by
the filter (all inputs of interest are ASCII). -/
def jsToLower (c : Char) : Char :=
  if 65 ≤ c.toNat ∧ c.toNat ≤ 90 then Char.ofNat (c.toNat + 32) else c

/-- JS String.prototype.toLowerCase on the ASCII fragment. -/
def jsToLowerS (s : String) : String := String.mk (s.data.map jsToLower)

/-- Accumulating word splitter: split on runs of whitespace, dropping empty
pieces, as trimmed.split on a whitespace run followed by filter(Boolean). -/
def wordsAux : List Char → List Char → List (List Char)
  | [], acc => if acc.isEmpty then [] else [acc.reverse]
  | c :: rest, acc =>
      if isWsChar c then
        if acc.isEmpty then wordsAux rest [] else acc.reverse :: wordsAux rest []
      else wordsAux rest (c :: acc)

/-- Words of a character list (split on whitespace, no empty words). -/
def wordsOf (l : List Char) : List (List Char) := wordsAux l []

/-- Number of words of a string, as computed by the JS pipeline
trim - split on whitespace - filter(Boolean) - length. -/
def wordCount (s : String) : Nat := (wordsOf (jsTrimL s.data)).length

/-- Join a list of words with single spaces, as Array.prototype.join. -/
def joinSpace : List (List Char) → List Char
  | [] => []
  | [w] => w
  | w :: ws => w ++ ' ' :: joinSpace ws

/-! ## Utterance filter (isFillerOrTooShort, src/Twilio/websocket.js) -/

/-- The FILLER_WORDS set of src/Twilio/websocket.js. -/
def FILLER_WORDS : List String :=
  ["okay", "ok", "hm", "hmm", "haan", "han", "yes", "no", "right", "aha",
   "uh", "um", "oh", "sure", "alright", "good", "fine", "thanks", "thank you"]

/-- MIN_UTTERANCE_LENGTH of src/Twilio/websocket.js. -/
def MIN_UTTERANCE_LENGTH : Nat := 8

/-- Characters stripped from the end of an utterance by the regexp
class of dot, bang, question mark and comma anchored at the end. -/
def isTrailPunct (c : Char) : Bool :=
  c == '.' || c == '!' || c == '?' || c == ','

/-- Strip the maximal trailing run of punctuation characters. -/
def stripTrailingPunct (l : List Char) : List Char :=
  (l.reverse.dropWhile isTrailPunct).reverse

/-- The normalised form used by the filter: trim, lowercase, strip trailing
punctuation. -/
def normalizeUtterance (t : String) : String :=
  String.mk (stripTrailingPunct ((jsTrimL t.data).map jsToLower))

/-- isFillerOrTooShort of src/Twilio/websocket.js: the length test is on the
raw transcript (before trimming), then the normalised form is looked up in
FILLER_WORDS. An empty string is covered by the length test. -/
def isFillerOrTooShort (t : String) : Bool :=
  if t.length < MIN_UTTERANCE_LENGTH then true
  else if FILLER_WORDS.contains (normalizeUtterance t) then true
  else false

/-! ## Incremental segmenter (handleUserUtterance inner loop,
src/Twilio/websocket.js) -/

/-- Sentence-terminal punctuation of the segmenter regexp. -/
def isSentPunct (c : Char) : Bool := c == '.' || c == '!' || c == '?'

/-- Leftmost-shortest match of the anchored regexp
"one or more characters (lazily), a sentence-terminal punctuation character,
then one or more whitespace characters" against pre.reverse ++ l.
Returns the captured group (everything up to and including the punctuation)
and the text after the whole match (the greedy whitespace run removed), or
none when the regexp does not match. -/
def sentSplit : List Char → List Char → Option (List Char × List Char)
  | pre, c :: w :: rest =>
      if !pre.isEmpty && isSentPunct c && isWsChar w then
        some (pre.reverse ++ [c], (w :: rest).dropWhile isWsChar)
      else sentSplit (c :: pre) (w :: rest)
  | _, _ => none

/-- TTS_FIRST_CHUNK_WORDS of src/Twilio/websocket.js. -/
def TTS_FIRST_CHUNK_WORDS : Nat := 15

/-- TTS_MIN_WORDS of src/Twilio/websocket.js. -/
def TTS_MIN_WORDS : Nat := 5

/-- One iteration of the segmenter loop body on the trimmed buffer: a sentence
match has priority; otherwise a buffer of at least 15 words yields its first
15 words; otherwise no segment. Returns the emitted candidate and the new
buffer. -/
def segStep (trimmed : List Char) : Option (List Char × List Char) :=
  let words := wordsOf trimmed
  match sentSplit [] trimmed with
  | some (g, rest) => some (jsTrimL g, rest)
  | none =>
      if TTS_FIRST_CHUNK_WORDS ≤ words.length then
        some (joinSpace (words.take TTS_FIRST_CHUNK_WORDS),
              joinSpace (words.drop TTS_FIRST_CHUNK_WORDS))
      else none

/-- The unbounded for-loop of the segmenter, run with fuel (each iteration
strictly shrinks the buffer, so fuel of one more than the buffer length is
exact). A candidate is appended only when it has at least TTS_MIN_WORDS
words; the buffer advances either way. -/
def segLoop : Nat → List Char → List (List Char) → List (List Char) × List Char
  | 0, buf, acc => (acc, buf)
  | fuel + 1, buf, acc =>
      match segStep (jsTrimL buf) with
      | none => (acc, buf)
      | some (seg, newBuf) =>
          segLoop fuel newBuf
            (if TTS_MIN_WORDS ≤ (wordsOf seg).length then acc ++ [seg] else acc)

/-- Folding one LLM delta into (fullResponse, buffer, ttsSegments): append the
chunk to both accumulators, then run the segmenter loop to exhaustion. -/
def consumeChunk : List Char × List Char × List (List Char) → String →
    List Char × List Char × List (List Char)
  | (full, buf, acc), c =>
      let buf1 := buf ++ c.data
      let (acc1, buf2) := segLoop (buf1.length + 1) buf1 acc
      (full ++ c.data, buf2, acc1)

/-- The stream-consumption loop over all LLM deltas. -/
def consumeChunks (chunks : List String) : List Char × List Char × List (List Char) :=
  chunks.foldl consumeChunk ([], [], [])

/-- The complete set of TTS segments produced for a list of LLM deltas:
the loop segments, then the trimmed buffer tail when it has at least
TTS_MIN_WORDS words, then the whole trimmed response as a single fallback
segment when nothing was emitted and the response is non-empty. -/
def ttsSegmentsL (chunks : List String) : List (List Char) :=
  let r := consumeChunks chunks
  let full := r.1
  let buf := r.2.1
  let segs := r.2.2
  let rem := jsTrimL buf
  let segs1 := if !rem.isEmpty && TTS_MIN_WORDS ≤ (wordsOf rem).length
               then segs ++ [rem] else segs
  if segs1.isEmpty && !(jsTrimL full).isEmpty then [jsTrimL full] else segs1

/-- String-level view of the TTS segments. -/
def ttsSegments (chunks : List String) : List String :=
  (ttsSegmentsL chunks).map String.mk

/-! ## Session state and pipeline transition system (src/Twilio/websocket.js)

Each asynchronous event handler of the orchestrator becomes a pure function
from session state to session state plus a list of emitted actions. Only the
fields the claims are about are modelled. -/

/-- A conversation turn as stored in state.conversationHistory. -/
structure Msg where
  role : String
  content : String
deriving DecidableEq, Repr

/-- The per-call session state fields relevant to utterance assembly,
pipeline gating and the STT reconnect policy. -/
structure SessionState where
  stopped : Bool := false
  pipelineProcessing : Bool := false
  sarvamHadError : Bool := false
  lastTranscript : String := ""
  transcripts : List String := []
  silenceTimerSet : Bool := false
deriving DecidableEq, Repr

/-- Externally visible effects of a handler invocation. -/
inductive PipelineAction where
  | invokeLLM (text : String)
  | reconnect
deriving DecidableEq, Repr

/-- Whether an action is an LLM invocation. -/
def isInvoke : PipelineAction → Bool
  | .invokeLLM _ => true
  | .reconnect => false

/-- The reduce over accumulated transcripts keeping the longer of two (ties
keep the earlier), applied when the list is non-empty; otherwise
state.lastTranscript is used. -/
def longestTranscript (ts : List String) (last : String) : String :=
  match ts with
  | [] => last
  | t :: rest => rest.foldl (fun a b => if b.length ≤ a.length then a else b) t

/-- triggerPipelineFromSilence of src/Twilio/websocket.js: clear the silence
timer; drop when stopped or a pipeline run is in flight; select the longest
accumulated transcript (or the last one when none accumulated); drop filler
or short text without clearing the list; otherwise clear the list, raise the
pipelineProcessing flag and invoke the LLM. -/
def triggerPipelineFromSilence (s : SessionState) : SessionState × List PipelineAction :=
  let s0 := { s with silenceTimerSet := false }
  if s0.stopped || s0.pipelineProcessing then (s0, [])
  else
    let toProcess := longestTranscript s0.transcripts s0.lastTranscript
    if (jsTrimS toProcess).isEmpty || isFillerOrTooShort toProcess then (s0, [])
    else ({ s0 with transcripts := [], pipelineProcessing := true },
          [.invokeLLM toProcess])

/-- The close handler of the STT upstream socket: the close-code-1000 pipeline
fallback (guarded by the pipelineProcessing flag), then the reconnect
decision. clientPresent models the non-null sarvamClient. -/
def onSarvamClose (clientPresent : Bool) (s : SessionState) (code : Nat) :
    SessionState × List PipelineAction :=
  let s0 := { s with silenceTimerSet := false }
  let fallback :=
    if code == 1000 && !s0.stopped && !s0.pipelineProcessing then
      let toProcess := longestTranscript s0.transcripts s0.lastTranscript
      if !(jsTrimS toProcess).isEmpty && !isFillerOrTooShort toProcess then
        ({ s0 with transcripts := [], pipelineProcessing := true },
         [PipelineAction.invokeLLM toProcess])
      else (s0, [])
    else (s0, [])
  let s1 := fallback.1
  let acts2 :=
    if !s1.stopped && clientPresent && code == 1000 && !s1.sarvamHadError then
      [PipelineAction.reconnect]
    else []
  (s1, fallback.2 ++ acts2)

/-- The message handler of the STT upstream socket, over the event type and
the optional transcript payload: an error event sets the sticky error flag;
a non-empty transcript is recorded and restarts the silence timer (only when
not stopped and no pipeline run is in flight); speech_start clears the last
transcript; speech_end hands the event transcript (or, failing that, the
last recorded transcript) to the filter and invokes the LLM on acceptance,
without consulting the pipelineProcessing flag and without clearing the
accumulated list. -/
def onSarvamMessage (s : SessionState) (type? : Option String)
    (transcript? : Option String) : SessionState × List PipelineAction :=
  if type? == some "error" then ({ s with sarvamHadError := true }, [])
  else
    let tval := transcript?.getD ""
    let s1 :=
      if !tval.isEmpty then
        { s with lastTranscript := tval,
                 transcripts := s.transcripts ++ [tval],
                 silenceTimerSet := !s.stopped && !s.pipelineProcessing }
      else s
    let s2 := if type? == some "speech_start" then { s1 with lastTranscript := "" } else s1
    let acts :=
      if type? == some "speech_end" then
        let toSend := if !tval.isEmpty then tval else s2.lastTranscript
        if !(jsTrimS toSend).isEmpty && !isFillerOrTooShort toSend then
          [PipelineAction.invokeLLM toSend]
        else []
      else []
    (s2, acts)

/-- The finally-equivalent exit of a pipeline run (the .finally attached to
handleUserUtterance by both guarded flush paths): the flag clears on
completion and on abort alike. -/
def onTurnDone (s : SessionState) : SessionState :=
  { s with pipelineProcessing := false }

/-! ## The LLM turn driver (handleUserUtterance, src/Twilio/websocket.js) -/

/-- How the streaming LLM turn ends: the stream completes; the stopped flag is
observed during or right after the stream; the send is rejected with an
abort error; any other exception is raised. -/
inductive LlmOutcome where
  | success
  | stoppedDuring
  | abortError
  | otherError
deriving DecidableEq, Repr

/-- handleUserUtterance of src/Twilio/websocket.js, as a function of the prior
history, the raw transcript, the LLM deltas consumed before the end of the
stream, the way the stream ended and the stopped flag at entry. Returns the
conversation history after the turn and the TTS segments dispatched.
On stop, abort or error the user turn just pushed is popped again; on
success a non-empty trimmed response is recorded as the assistant turn. -/
def handleUserUtterance (hist : List Msg) (transcript : String)
    (chunks : List String) (outcome : LlmOutcome) (stoppedAtStart : Bool) :
    List Msg × List String :=
  if stoppedAtStart || (jsTrimS transcript).isEmpty then (hist, [])
  else
    let userMessage := jsTrimS transcript
    let hist1 := hist ++ [⟨"user", userMessage⟩]
    match outcome with
    | .stoppedDuring | .abortError | .otherError => (hist1.dropLast, [])
    | .success =>
        let full := String.mk (consumeChunks chunks).1
        let assistantMessage := jsTrimS full
        if assistantMessage.isEmpty then (hist1, [])
        else (hist1 ++ [⟨"assistant", assistantMessage⟩], ttsSegments chunks)

/-! ## The LLM request builder (src/services/llm.service.js) -/

/-- A message in the shape sent to the chat model. -/
structure BMsg where
  role : String
  text : String
deriving DecidableEq, Repr

/-- toBedrockMessages of src/services/llm.service.js. -/
def toBedrockMessages (history : List Msg) : List BMsg :=
  history.map (fun m => ⟨if m.role == "user" then "user" else "assistant", m.content⟩)

/-- The message sequence built by generateResponseStream: the passed history
converted, then the user message appended once more as the final message. -/
def generateResponseStreamMessages (userMessage : String)
    (conversationHistory : List Msg) : List BMsg :=
  toBedrockMessages conversationHistory ++ [⟨"user", userMessage⟩]

/-- The message sequence the chat model receives for a turn: the caller in
handleUserUtterance first pushes the trimmed utterance onto the history and
then passes that history, together with the utterance, to
generateResponseStream. -/
def llmRequestMessages (hist : List Msg) (transcript : String) : List BMsg :=
  generateResponseStreamMessages (jsTrimS transcript)
    (hist ++ [⟨"user", jsTrimS transcript⟩])

/-- maxTokens of the inferenceConfig of src/services/llm.service.js. -/
def llmMaxTokens : Nat := 180

/-- temperature of the inferenceConfig. -/
def llmTemperature : ℚ := 0.2

/-- topP of the inferenceConfig. -/
def llmTopP : ℚ := 0.7

/-! ## TTS retry wrapper (src/services/tts.service.js) -/

/-- MAX_RETRIES of src/services/tts.service.js. -/
def MAX_RETRIES : Nat := 2

/-- RETRY_DELAY_MS of src/services/tts.service.js. -/
def RETRY_DELAY_MS : Nat := 500

/-- MIN_TTS_WORDS of src/services/tts.service.js. -/
def MIN_TTS_WORDS : Nat := 5

/-- What a single provider call does: returns a response carrying a possibly
empty list of audio blobs, or raises. -/
inductive ProviderOutcome where
  | okAudios (audios : List (List Nat))
  | throws
deriving DecidableEq, Repr

/-- The observable run of textToSpeechWithRetry: its value (Except tracks
whether an exception escapes; the source catches every provider error),
the number of provider attempts made and the list of backoff delays slept. -/
structure TtsRun where
  result : Except String (Option (List Nat))
  attempts : Nat
  delays : List Nat
deriving Repr

/-- The attempt loop of textToSpeechWithRetry, recursing on the number of
remaining retries. A response with no audio blob returns null at once; the
first blob is returned on success; a raise is caught, and either a delay of
RETRY_DELAY_MS is slept before the next attempt or, with no retry left, null
is returned. -/
def ttsLoop (provider : Nat → ProviderOutcome) :
    Nat → Nat → List Nat → TtsRun
  | a, remaining, acc =>
      match provider a with
      | .okAudios audios =>
          { result := .ok audios.head?, attempts := a + 1, delays := acc }
      | .throws =>
          match remaining with
          | 0 => { result := .ok none, attempts := a + 1, delays := acc }
          | r + 1 => ttsLoop provider (a + 1) r (acc ++ [RETRY_DELAY_MS])

/-- textToSpeechWithRetry of src/services/tts.service.js: null without any
attempt when no API key is configured or the cleaned text has fewer than
MIN_TTS_WORDS words; otherwise the attempt loop with MAX_RETRIES retries. -/
def textToSpeechWithRetry (hasKey : Bool) (text : String)
    (provider : Nat → ProviderOutcome) : TtsRun :=
  if !hasKey then { result := .ok none, attempts := 0, delays := [] }
  else if wordCount text < MIN_TTS_WORDS then
    { result := .ok none, attempts := 0, delays := [] }
  else ttsLoop provider 0 MAX_RETRIES []

/-! ## Codec layer and frame pacer (src/Utils/Utility.js and the playback
loop of src/Twilio/websocket.js) -/

/-- Little-endian bytes of a 16-bit value. -/
def u16le (n : Nat) : List Nat := [n % 256, n / 256 % 256]

/-- Little-endian bytes of a 32-bit value. -/
def u32le (n : Nat) : List Nat :=
  [n % 256, n / 256 % 256, n / 65536 % 256, n / 16777216 % 256]

/-- ASCII bytes of a header tag string. -/
def asciiBytes (s : String) : List Nat := s.data.map Char.toNat

/-- Two's-complement little-endian bytes of a signed 16-bit sample, as
Buffer.prototype.writeInt16LE. -/
def int16le (v : Int) : List Nat :=
  let u := (v % 65536).toNat
  [u % 256, u / 256 % 256]

/-- The signed 16-bit sample at a little-endian byte pair, as
Buffer.prototype.readInt16LE. -/
def int16OfLE (lo hi : Nat) : Int :=
  let v := (lo + 256 * hi) % 65536
  if v < 32768 then (v : Int) else (v : Int) - 65536

/-- The 16-bit little-endian samples of a PCM byte buffer (a trailing odd
byte is ignored, as by paired reads). -/
def toPcmSamples : List Nat → List Int
  | lo :: hi :: rest => int16OfLE lo hi :: toPcmSamples rest
  | _ => []

/-- Modelled from the spec: the segment number of the biased magnitude in the
ITU-T G.711 mu-law encoder. The encoder itself (pcmToMulawBuffer, imported
by src/Twilio/websocket.js from the Utility module) is not present in the
sources; section 4.2 of the design document specifies it as the inverse of
the G.711 mu-law decode, one byte per 16-bit sample. -/
def muSegment (m : Nat) : Nat :=
  if 0x4000 ≤ m then 7
  else if 0x2000 ≤ m then 6
  else if 0x1000 ≤ m then 5
  else if 0x800 ≤ m then 4
  else if 0x400 ≤ m then 3
  else if 0x200 ≤ m then 2
  else if 0x100 ≤ m then 1
  else 0

/-- Modelled from the spec: ITU-T G.711 mu-law encoding of one signed 16-bit
sample to one byte (sign bit, 3-bit segment, 4-bit mantissa, complemented). -/
def mulawEncodeSample (s : Int) : Nat :=
  let sign := if s < 0 then 0x80 else 0
  let mag := (if s < 0 then -s else s).toNat
  let m := min mag 32635 + 132
  let e := muSegment m
  let mantissa := m / 2 ^ (e + 3) % 16
  (sign + e * 16 + mantissa) ^^^ 0xFF

/-- Modelled from the spec: pcmToMulawBuffer, the mu-law encoder over a
PCM16LE byte buffer, one output byte per sample. -/
def pcmToMulawBuffer (pcm : List Nat) : List Nat :=
  (toPcmSamples pcm).map mulawEncodeSample

/-- BYTES_PER_CHUNK of the playback loop: 8000 Hz times 2 bytes times 20 ms. -/
def BYTES_PER_CHUNK : Nat := 320

/-- The 320-byte slices taken by the playback loop (the last may be shorter). -/
def chunks320 (l : List Nat) : List (List Nat) :=
  if h : l = [] then [] else l.take BYTES_PER_CHUNK :: chunks320 (l.drop BYTES_PER_CHUNK)
termination_by l.length
decreasing_by
  simp only [List.length_drop, BYTES_PER_CHUNK]
  have := List.length_pos.mpr h
  omega

/-- The outbound media payloads for one PCM buffer handed to the playback
path: each 320-byte PCM slice is mu-law encoded and sent as one message. -/
def playbackFrames (pcm : List Nat) : List (List Nat) :=
  (chunks320 pcm).map pcmToMulawBuffer

/-! ## WAV wrapping (pcmToWavBuffer of the Utility module and mulawToWav of
src/Utils/Utility.js), modelled as Buffer.alloc plus sequential writes. -/

/-- Buffer.alloc: n zero bytes. -/
def bufAlloc (n : Nat) : List Nat := List.replicate n 0

/-- An in-place write of a byte sequence at an offset, as the Buffer write
and copy primitives (the buffer is large enough in every use below). -/
def bufWrite (buf : List Nat) (offset : Nat) (bytes : List Nat) : List Nat :=
  buf.take offset ++ bytes ++ buf.drop (offset + bytes.length)

/-- The sample-writing loop of mulawToWav: writeInt16LE at offset, offset
advancing by two per sample. -/
def writeSamples (buf : List Nat) (offset : Nat) : List Int → List Nat
  | [] => buf
  | v :: rest => writeSamples (bufWrite buf offset (int16le v)) (offset + 2) rest

/-- The header-and-field writing loop shared by both WAV writers: each field
is written at the running offset, which then advances by the field width
(the source increments a single offset variable after every write). -/
def writeFieldsAux (buf : List Nat) (offset : Nat) : List (List Nat) → List Nat
  | [] => buf
  | bs :: rest => writeFieldsAux (bufWrite buf offset bs) (offset + bs.length) rest

/-- The thirteen header fields written before the payload, for a payload of
dataSize bytes inside a file of 44 + dataSize bytes. -/
def wavHeaderFields (dataSize : Nat) : List (List Nat) :=
  [asciiBytes "RIFF", u32le (44 + dataSize - 8), asciiBytes "WAVE",
   asciiBytes "fmt ", u32le 16, u16le 1, u16le 1, u32le 8000, u32le 16000,
   u16le 2, u16le 16, asciiBytes "data", u32le dataSize]

/-- The 44 header bytes of the canonical little-endian RIFF/WAVE layout for
8 kHz mono 16-bit PCM, stated per the field list of the design document. -/
def wavHeaderBytes (dataSize : Nat) : List Nat :=
  asciiBytes "RIFF" ++ u32le (44 + dataSize - 8) ++ asciiBytes "WAVE" ++
  asciiBytes "fmt " ++ u32le 16 ++ u16le 1 ++ u16le 1 ++ u32le 8000 ++
  u32le 16000 ++ u16le 2 ++ u16le 16 ++ asciiBytes "data" ++ u32le dataSize

/-- pcmToWavBuffer of the Utility module: allocate 44 + dataSize bytes, write
the header fields at the running offset (0, 4, 8, 12, 16, 20, 22, 24, 28,
32, 34, 36, 40), then copy the PCM payload at offset 44. -/
def pcmToWavBuffer (pcm : List Nat) : List Nat :=
  let dataSize := pcm.length
  let fileSize := 44 + dataSize
  bufWrite (writeFieldsAux (bufAlloc fileSize) 0 (wavHeaderFields dataSize)) 44 pcm

/-- mulawToWav of src/Utils/Utility.js: decode every mu-law byte to one
16-bit sample (the decoder is the external alawmulaw library, passed here
as a parameter), allocate 44 + numSamples * 2 bytes, write the same header
fields at the running offset, then write each sample via writeInt16LE from
offset 44 on. -/
def mulawToWav (decode : Nat → Int) (mulaw : List Nat) : List Nat :=
  let pcmSamples := mulaw.map decode
  let dataSize := pcmSamples.length * 2
  let fileSize := 44 + dataSize
  writeSamples (writeFieldsAux (bufAlloc fileSize) 0 (wavHeaderFields dataSize)) 44 pcmSamples

/-! ## Helper lemmas on characters, lists and strings -/

theorem char_eq_of_toNat_eq {a b : Char} (h : a.toNat = b.toNat) : a = b :=
  Char.eq_of_val_eq (UInt32.eq_of_toBitVec_eq (BitVec.eq_of_toNat_eq h))

theorem toNat_ofNat_of_small {n : Nat} (h : n < 55296) : (Char.ofNat n).toNat = n := by
  simp [Char.ofNat, Char.ofNatAux, Nat.isValidChar, h]
  rfl

theorem isWsChar_jsToLower (c : Char) : isWsChar (jsToLower c) = isWsChar c := by
  unfold jsToLower
  split
  · rename_i h
    have hv : (Char.ofNat (c.toNat + 32)).toNat = c.toNat + 32 :=
      toNat_ofNat_of_small (by omega)
    have h1 : c.toNat + 32 ∉ wsCodes := by simp [wsCodes]; omega
    have h2 : c.toNat ∉ wsCodes := by simp [wsCodes]; omega
    simp [isWsChar, hv, h1, h2]
  · rfl

theorem isTrailPunct_toNat (c : Char) :
    isTrailPunct c = decide (c.toNat = 46 ∨ c.toNat = 33 ∨ c.toNat = 63 ∨ c.toNat = 44) := by
  unfold isTrailPunct
  rcases Decidable.em (c.toNat = 46 ∨ c.toNat = 33 ∨ c.toNat = 63 ∨ c.toNat = 44) with h | h
  · rcases h with h | h | h | h
    · rw [char_eq_of_toNat_eq (b := '.') h]; decide
    · rw [char_eq_of_toNat_eq (b := '!') h]; decide
    · rw [char_eq_of_toNat_eq (b := '?') h]; decide
    · rw [char_eq_of_toNat_eq (b := ',') h]; decide
  · push_neg at h
    obtain ⟨h1, h2, h3, h4⟩ := h
    have e1 : (c == '.') = false := by
      refine beq_eq_false_iff_ne.mpr ?_
      intro he; exact h1 (by rw [he]; rfl)
    have e2 : (c == '!') = false := by
      refine beq_eq_false_iff_ne.mpr ?_
      intro he; exact h2 (by rw [he]; rfl)
    have e3 : (c == '?') = false := by
      refine beq_eq_false_iff_ne.mpr ?_
      intro he; exact h3 (by rw [he]; rfl)
    have e4 : (c == ',') = false := by
      refine beq_eq_false_iff_ne.mpr ?_
      intro he; exact h4 (by rw [he]; rfl)
    have hno : ¬(c.toNat = 46 ∨ c.toNat = 33 ∨ c.toNat = 63 ∨ c.toNat = 44) := by omega
    simp [e1, e2, e3, e4, hno]

theorem isTrailPunct_jsToLower (c : Char) : isTrailPunct (jsToLower c) = isTrailPunct c := by
  unfold jsToLower
  split
  · rename_i h
    have hv : (Char.ofNat (c.toNat + 32)).toNat = c.toNat + 32 :=
      toNat_ofNat_of_small (by omega)
    rw [isTrailPunct_toNat, isTrailPunct_toNat, hv]
    simp only [decide_eq_decide]
    omega
  · rfl

theorem jsToLower_of_trailPunct {c : Char} (h : isTrailPunct c = true) : jsToLower c = c := by
  rw [isTrailPunct_toNat] at h
  unfold jsToLower
  rw [if_neg]
  intro hc
  simp at h
  omega

theorem isWsChar_of_trailPunct {c : Char} (h : isTrailPunct c = true) : isWsChar c = false := by
  rw [isTrailPunct_toNat] at h
  simp at h
  simp [isWsChar, wsCodes]
  omega

theorem dropWhile_cons_false {α} (q : α → Bool) (c : α) (t : List α) (h : q c = false) :
    (c :: t).dropWhile q = c :: t := by
  simp [List.dropWhile_cons, h]

theorem dropWhile_append_all {α} (q : α → Bool) (l1 l2 : List α)
    (h : ∀ c ∈ l1, q c = true) : (l1 ++ l2).dropWhile q = l2.dropWhile q := by
  induction l1 with
  | nil => rfl
  | cons c t ih =>
      simp only [List.cons_append, List.dropWhile_cons, h c (by simp)]
      exact ih (fun x hx => h x (by simp [hx]))

theorem map_jsToLower_punct (pd : List Char) (hp : ∀ c ∈ pd, isTrailPunct c = true) :
    pd.map jsToLower = pd := by
  induction pd with
  | nil => rfl
  | cons c t ih =>
      simp only [List.map_cons, jsToLower_of_trailPunct (hp c (by simp))]
      rw [ih (fun x hx => hp x (by simp [hx]))]

theorem length_dropWhile_le {α} (q : α → Bool) (l : List α) :
    (l.dropWhile q).length ≤ l.length := by
  induction l with
  | nil => simp
  | cons c t ih =>
      simp only [List.dropWhile_cons]
      split
      · exact Nat.le_trans ih (by simp)
      · simp

theorem jsTrimL_length_le (l : List Char) : (jsTrimL l).length ≤ l.length := by
  unfold jsTrimL
  calc ((l.dropWhile isWsChar).reverse.dropWhile isWsChar).reverse.length
      = ((l.dropWhile isWsChar).reverse.dropWhile isWsChar).length := by simp
    _ ≤ (l.dropWhile isWsChar).reverse.length := length_dropWhile_le _ _
    _ = (l.dropWhile isWsChar).length := by simp
    _ ≤ l.length := length_dropWhile_le _ _

theorem contains_iff_mem (l : List String) (x : String) : l.contains x = true ↔ x ∈ l := by
  simp [List.contains]

theorem string_append_data (s p : String) : (s ++ p).data = s.data ++ p.data := by
  cases s; cases p; rfl

/-! ## Claim C6: the utterance filter -/

/-- The head and tail character shape of every filler word: non-empty, first
and last characters are neither whitespace nor (for the last) trailing
punctuation. -/
theorem filler_facts : ∀ w ∈ FILLER_WORDS,
    w.data.isEmpty = false ∧
    w.data.head?.all (fun c => !isWsChar c) = true ∧
    w.data.reverse.head?.all (fun c => !isWsChar c && !isTrailPunct c) = true := by
  decide

/-- The normalised form of a cased filler word with trailing punctuation
appended is the lowercased filler word itself. -/
theorem normalizeUtterance_filler_append (s p : String)
    (hw : jsToLowerS s ∈ FILLER_WORDS) (hp : ∀ c ∈ p.data, isTrailPunct c = true) :
    normalizeUtterance (s ++ p) = jsToLowerS s := by
  obtain ⟨hne, hhead, hlast⟩ := filler_facts _ hw
  have hgoal : stripTrailingPunct ((jsTrimL (s.data ++ p.data)).map jsToLower)
      = s.data.map jsToLower := by
    have hx : s.data ≠ [] := by
      intro h0
      simp [jsToLowerS, h0] at hne
    -- the leading end: the first character of s is not whitespace
    have hdrop1 : (s.data ++ p.data).dropWhile isWsChar = s.data ++ p.data := by
      obtain ⟨c, t, hct⟩ := List.exists_cons_of_ne_nil hx
      rw [hct]
      apply dropWhile_cons_false
      have : (jsToLowerS s).data.head? = some (jsToLower c) := by
        simp [jsToLowerS, hct]
      rw [this] at hhead
      simp at hhead
      rw [← isWsChar_jsToLower]
      simpa using hhead
    -- the trailing end: the last character of s ++ p is not whitespace
    have hdrop2 : (s.data ++ p.data).reverse.dropWhile isWsChar
        = (s.data ++ p.data).reverse := by
      rw [List.reverse_append]
      cases hpr : p.data.reverse with
      | nil =>
          simp only [List.nil_append]
          obtain ⟨c, t, hct⟩ := List.exists_cons_of_ne_nil
            (show s.data.reverse ≠ [] by simpa using hx)
          rw [hct]
          apply dropWhile_cons_false
          have : (jsToLowerS s).data.reverse.head? = some (jsToLower c) := by
            show (s.data.map jsToLower).reverse.head? = some (jsToLower c)
            rw [← List.map_reverse, hct]
            rfl
          rw [this] at hlast
          simp at hlast
          rw [← isWsChar_jsToLower]
          simpa using hlast.1
      | cons d t =>
          simp only [List.cons_append]
          apply dropWhile_cons_false
          apply isWsChar_of_trailPunct
          exact hp d (by
            have : d ∈ p.data.reverse := by rw [hpr]; simp
            simpa using this)
    have htrim : jsTrimL (s.data ++ p.data) = s.data ++ p.data := by
      unfold jsTrimL
      rw [hdrop1, hdrop2]
      simp
    rw [htrim, List.map_append, map_jsToLower_punct _ hp]
    -- stripping: drop the punctuation suffix, stop at the last filler character
    unfold stripTrailingPunct
    rw [List.reverse_append]
    rw [dropWhile_append_all _ _ _ (fun c hc => hp c (by simpa using hc))]
    have hx2 : (s.data.map jsToLower).reverse ≠ [] := by
      intro h0
      exact hx (by simpa using h0)
    obtain ⟨c, t, hct⟩ := List.exists_cons_of_ne_nil hx2
    have hcp : isTrailPunct c = false := by
      have : (jsToLowerS s).data.reverse.head? = some c := by
        show (s.data.map jsToLower).reverse.head? = some c
        rw [hct]
        rfl
      rw [this] at hlast
      simp at hlast
      simpa using hlast.2
    rw [hct, dropWhile_cons_false _ _ _ hcp, ← hct]
    simp
  calc normalizeUtterance (s ++ p)
      = String.mk (stripTrailingPunct ((jsTrimL ((s ++ p).data)).map jsToLower)) := rfl
    _ = String.mk (stripTrailingPunct ((jsTrimL (s.data ++ p.data)).map jsToLower)) := by
        rw [string_append_data]
    _ = String.mk (s.data.map jsToLower) := by rw [hgoal]
    _ = jsToLowerS s := rfl

/-- C6 (amended): the filter rejects exactly when the raw transcript length
(before trimming) is below 8 or the normalised form (trim, lowercase, strip
trailing punctuation) is a filler word. Moreover every cased filler word
with trailing punctuation appended is rejected, and every transcript whose
trimmed length is at least 8 and whose normalised form is not a filler word
is accepted. The original claim measured the length after trimming, which
the source does not do. -/
theorem c6_filter_characterisation :
    (∀ t : String, isFillerOrTooShort t = true ↔
      (t.length < 8 ∨ normalizeUtterance t ∈ FILLER_WORDS))
    ∧ (∀ s p : String, jsToLowerS s ∈ FILLER_WORDS →
        (∀ c ∈ p.data, isTrailPunct c = true) → isFillerOrTooShort (s ++ p) = true)
    ∧ (∀ t : String, 8 ≤ (jsTrimS t).length → normalizeUtterance t ∉ FILLER_WORDS →
        isFillerOrTooShort t = false) := by
  refine ⟨?_, ?_, ?_⟩
  · intro t
    unfold isFillerOrTooShort MIN_UTTERANCE_LENGTH
    split
    · rename_i h
      simp [h]
    · rename_i h
      split
      · rename_i hc
        simp [h, (contains_iff_mem _ _).mp hc]
      · rename_i hc
        simp only [Bool.false_eq_true, false_iff]
        push_neg
        refine ⟨by omega, ?_⟩
        intro hmem
        exact hc ((contains_iff_mem _ _).mpr hmem)
  · intro s p hw hp
    by_cases hlen : (s ++ p).length < 8
    · unfold isFillerOrTooShort MIN_UTTERANCE_LENGTH
      rw [if_pos hlen]
    · unfold isFillerOrTooShort MIN_UTTERANCE_LENGTH
      rw [if_neg hlen, if_pos]
      exact (contains_iff_mem _ _).mpr
        (by rw [normalizeUtterance_filler_append s p hw hp]; exact hw)
  · intro t hlen hmem
    have hd : (jsTrimS t).length = (jsTrimL t.data).length := rfl
    have ht : t.length = t.data.length := rfl
    have hle := jsTrimL_length_le t.data
    have h8 : ¬ t.length < 8 := by omega
    unfold isFillerOrTooShort MIN_UTTERANCE_LENGTH
    rw [if_neg h8, if_neg]
    intro hc
    exact hmem ((contains_iff_mem _ _).mp hc)

/-- C6 counterexample: a transcript of raw length 8 whose trimmed length is
2. The claim demands rejection (its trimmed length is below 8), but the
source measures the untrimmed length and accepts. -/
theorem c6_cex_untrimmed_length :
    isFillerOrTooShort "      hi" = false ∧ (jsTrimS "      hi").length < 8 := by
  constructor
  · rfl
  · decide

/-- C6 witness: the characterisation applied to concrete inputs. -/
theorem c6_filter_witness :
    isFillerOrTooShort "OKAY!!" = true ∧
    isFillerOrTooShort "Thank You." = true ∧
    isFillerOrTooShort "how is the weather" = false :=
  ⟨c6_filter_characterisation.2.1 "OKAY" "!!" (by decide) (by decide),
   c6_filter_characterisation.2.1 "Thank You" "." (by decide) (by decide),
   c6_filter_characterisation.2.2 "how is the weather" (by decide) (by decide)⟩

/-! ## Claims C1, C2, C8: flush paths, selection and reconnect policy -/

/-- C1 (amended): the silence-timer flush and the close-code-1000 fallback
drop the utterance without invoking the LLM whenever pipelineProcessing is
true, and the finally-equivalent exit clears the flag on completion or
abort. (The speech_end flush path does not check the flag; see the
counterexample.) -/
theorem c1_pipeline_gate :
    (∀ s : SessionState, s.pipelineProcessing = true →
      triggerPipelineFromSilence s = ({ s with silenceTimerSet := false }, []))
    ∧ (∀ (cp : Bool) (s : SessionState) (code : Nat), s.pipelineProcessing = true →
        (onSarvamClose cp s code).2.any isInvoke = false)
    ∧ (∀ s : SessionState, (onTurnDone s).pipelineProcessing = false) := by
  refine ⟨?_, ?_, ?_⟩
  · intro s h
    unfold triggerPipelineFromSilence
    rw [if_pos]
    simp [h]
  · intro cp s code h
    simp only [onSarvamClose, h]
    rw [if_neg (by simp)]
    dsimp only
    split <;> rfl
  · intro s
    rfl

/-- C1 witness: the gate theorem applied at a concrete in-flight state. -/
theorem c1_pipeline_gate_witness :
    triggerPipelineFromSilence { pipelineProcessing := true, transcripts := ["how is the weather"] } =
      ({ pipelineProcessing := true, transcripts := ["how is the weather"] }, []) ∧
    (onSarvamClose true { pipelineProcessing := true, transcripts := ["how is the weather"] } 1000).2.any
      isInvoke = false ∧
    (onTurnDone { pipelineProcessing := true }).pipelineProcessing = false :=
  ⟨c1_pipeline_gate.1 _ rfl, c1_pipeline_gate.2.1 true _ 1000 rfl, c1_pipeline_gate.2.2 _⟩

/-- C1 counterexample: a speech_end event carrying an accepted transcript
arrives while pipelineProcessing is true, and the handler still emits an
LLM invocation — the speech_end flush path never consults the flag. -/
theorem c1_cex_speech_end_ignores_flag :
    SessionState.pipelineProcessing { pipelineProcessing := true } = true ∧
    (onSarvamMessage { pipelineProcessing := true } (some "speech_end")
        (some "how is the weather")).2 =
      [PipelineAction.invokeLLM "how is the weather"] := by
  exact ⟨rfl, rfl⟩

/-- The state reached after the three partial transcripts of the claim. -/
def assembled3 : SessionState :=
  (onSarvamMessage
    (onSarvamMessage
      (onSarvamMessage {} (some "transcript") (some "how")).1
      (some "transcript") (some "how is")).1
    (some "transcript") (some "how is the weather")).1

/-- C2 (amended): the silence-timer and close-1000 flush paths select the
longest accumulated transcript and clear the list when it passes the
filter; the speech_end path instead uses the transcript carried by the
event (or the most recent partial) and clears nothing; on the monotone
partial sequence "how", "how is", "how is the weather" all three paths
yield "how is the weather". -/
theorem c2_flush_selection :
    (∀ s : SessionState, s.stopped = false → s.pipelineProcessing = false →
      (jsTrimS (longestTranscript s.transcripts s.lastTranscript)).isEmpty = false →
      isFillerOrTooShort (longestTranscript s.transcripts s.lastTranscript) = false →
      triggerPipelineFromSilence s =
        ({ s with silenceTimerSet := false, transcripts := [], pipelineProcessing := true },
         [PipelineAction.invokeLLM (longestTranscript s.transcripts s.lastTranscript)]))
    ∧ (∀ (cp : Bool) (s : SessionState), s.stopped = false → s.pipelineProcessing = false →
        (jsTrimS (longestTranscript s.transcripts s.lastTranscript)).isEmpty = false →
        isFillerOrTooShort (longestTranscript s.transcripts s.lastTranscript) = false →
        (onSarvamClose cp s 1000).1.transcripts = [] ∧
        (onSarvamClose cp s 1000).2.contains
          (PipelineAction.invokeLLM (longestTranscript s.transcripts s.lastTranscript)) = true)
    ∧ (∀ (s : SessionState) (t : String), t.isEmpty = false →
        (jsTrimS t).isEmpty = false → isFillerOrTooShort t = false →
        (onSarvamMessage s (some "speech_end") (some t)).2 = [PipelineAction.invokeLLM t] ∧
        (onSarvamMessage s (some "speech_end") (some t)).1.transcripts = s.transcripts ++ [t])
    ∧ ((triggerPipelineFromSilence assembled3).2 =
         [PipelineAction.invokeLLM "how is the weather"] ∧
       (onSarvamClose true assembled3 1000).2.contains
         (PipelineAction.invokeLLM "how is the weather") = true ∧
       (onSarvamMessage assembled3 (some "speech_end") none).2 =
         [PipelineAction.invokeLLM "how is the weather"]) := by
  refine ⟨?_, ?_, ?_, ?_, ?_, ?_⟩
  · intro s h1 h2 h3 h4
    unfold triggerPipelineFromSilence
    rw [if_neg (by simp [h1, h2])]
    rw [if_neg (by simp [h3, h4])]
  · intro cp s h1 h2 h3 h4
    simp only [onSarvamClose]
    rw [if_pos (by simp [h1, h2]), if_pos (by simp [h3, h4])]
    refine ⟨rfl, ?_⟩
    simp [List.contains]
  · intro s t h1 h2 h3
    unfold onSarvamMessage
    simp [h1, h2, h3]
  · rfl
  · rfl
  · rfl

/-- C2 witness: the universally quantified flush-path statements applied at
a concrete two-partial state. -/
theorem c2_flush_selection_witness :
    triggerPipelineFromSilence { transcripts := ["what should I sow in July"], lastTranscript := "what should I sow in July" } =
      ({ transcripts := [], pipelineProcessing := true, lastTranscript := "what should I sow in July" },
       [PipelineAction.invokeLLM "what should I sow in July"]) ∧
    (onSarvamMessage {} (some "speech_end") (some "what should I sow in July")).2 =
      [PipelineAction.invokeLLM "what should I sow in July"] :=
  ⟨c2_flush_selection.1 _ rfl rfl (by decide) (by decide),
   (c2_flush_selection.2.2.1 {} "what should I sow in July" (by decide) (by decide)
      (by decide)).1⟩

/-- The state reached after a long partial followed by a shorter final
partial. -/
def c2CexState : SessionState :=
  (onSarvamMessage
    (onSarvamMessage {} (some "transcript") (some "how is the weather today sir")).1
    (some "transcript") (some "okay fine")).1

/-- C2 counterexample: on a speech_end flush the source hands the most
recent partial to the pipeline, not the longest accumulated one, and does
not clear the accumulated list. -/
theorem c2_cex_speech_end_not_longest :
    (onSarvamMessage c2CexState (some "speech_end") none).2 =
      [PipelineAction.invokeLLM "okay fine"] ∧
    longestTranscript c2CexState.transcripts c2CexState.lastTranscript =
      "how is the weather today sir" ∧
    ("okay fine" : String) ≠ "how is the weather today sir" ∧
    (onSarvamMessage c2CexState (some "speech_end") none).1.transcripts ≠ [] := by
  refine ⟨rfl, rfl, by decide, by decide⟩

/-- C8 (confirmed): a reconnect is emitted on upstream close exactly when the
session is not stopped, the client is configured, the close code is 1000
and no error was observed on this upstream; no other handler ever emits a
reconnect. -/
theorem c8_reconnect_policy :
    (∀ (cp : Bool) (s : SessionState) (code : Nat),
      (onSarvamClose cp s code).2.contains PipelineAction.reconnect =
        (!s.stopped && cp && (code == 1000) && !s.sarvamHadError))
    ∧ (∀ (s : SessionState) (ty tr : Option String),
        (onSarvamMessage s ty tr).2.contains PipelineAction.reconnect = false)
    ∧ (∀ s : SessionState,
        (triggerPipelineFromSilence s).2.contains PipelineAction.reconnect = false) := by
  refine ⟨?_, ?_, ?_⟩
  · intro cp s code
    rcases s with ⟨st, pp, he, lt, ts, sts⟩
    by_cases hcode : (code == 1000) = true
    · cases st <;> cases pp <;> cases he <;> cases cp <;>
        simp only [onSarvamClose, hcode] <;>
        (repeat' split) <;> simp_all [List.contains]
    · have h0 : (code == 1000) = false := by
        revert hcode; cases (code == 1000) <;> simp
      cases st <;> cases pp <;> cases he <;> cases cp <;>
        simp [onSarvamClose, h0, List.contains]
  · intro s ty tr
    simp only [onSarvamMessage]
    split
    · rfl
    · dsimp only
      split
      · split <;> simp [List.contains]
      · rfl
  · intro s
    simp only [triggerPipelineFromSilence]
    split
    · rfl
    · split <;> simp [List.contains]

/-! ## Claim C3: the abort invariant of the LLM turn driver -/

/-- C3 (confirmed): if the session is stopped during the stream, the send is
rejected with an abort error, or any other error is raised, the user turn
pushed for the utterance is popped again and no assistant turn is
recorded: the history after the turn equals the history from before it and
no TTS segment is dispatched. -/
theorem c3_abort_pops_user_turn :
    ∀ (hist : List Msg) (transcript : String) (chunks : List String) (st : Bool),
      handleUserUtterance hist transcript chunks LlmOutcome.stoppedDuring st = (hist, []) ∧
      handleUserUtterance hist transcript chunks LlmOutcome.abortError st = (hist, []) ∧
      handleUserUtterance hist transcript chunks LlmOutcome.otherError st = (hist, []) := by
  intro hist transcript chunks st
  refine ⟨?_, ?_, ?_⟩ <;>
    (unfold handleUserUtterance
     split
     · rfl
     · simp [List.dropLast_concat])

/-! ## Claim C4: the message sequence sent to the chat model -/

/-- C4 (code bug): the sequence sent for a turn lists each prior turn once
but carries the accepted utterance twice — handleUserUtterance pushes the
trimmed utterance onto the history before calling generateResponseStream,
whose documented contract expects only prior turns and which appends the
utterance once more. The inference parameters match the claim. -/
theorem c4_duplicate_final_user_message :
    llmRequestMessages [⟨"user", "What about wheat?"⟩, ⟨"assistant", "Wheat grows well in winter."⟩] "how is the weather" =
      [⟨"user", "What about wheat?"⟩, ⟨"assistant", "Wheat grows well in winter."⟩,
       ⟨"user", "how is the weather"⟩, ⟨"user", "how is the weather"⟩] ∧
    llmMaxTokens = 180 ∧ llmTemperature = 2 / 10 ∧ llmTopP = 7 / 10 := by
  refine ⟨rfl, rfl, ?_, ?_⟩ <;> norm_num [llmTemperature, llmTopP]

/-! ## Claim C5: the incremental segmenter -/

/-- Every candidate appended by the segmenter loop carries at least
TTS_MIN_WORDS words, provided the accumulator already does. -/
theorem segLoop_min_words : ∀ (fuel : Nat) (buf : List Char) (acc : List (List Char)),
    (∀ x ∈ acc, TTS_MIN_WORDS ≤ (wordsOf x).length) →
    ∀ x ∈ (segLoop fuel buf acc).1, TTS_MIN_WORDS ≤ (wordsOf x).length := by
  intro fuel
  induction fuel with
  | zero => intro buf acc hacc x hx; exact hacc x hx
  | succ n ih =>
      intro buf acc hacc x hx
      simp only [segLoop] at hx
      rcases hseg : segStep (jsTrimL buf) with _ | ⟨seg, newBuf⟩
      · rw [hseg] at hx
        exact hacc x hx
      · rw [hseg] at hx
        refine ih _ _ ?_ x hx
        intro y hy
        by_cases h5 : TTS_MIN_WORDS ≤ (wordsOf seg).length
        · rw [if_pos h5] at hy
          rcases List.mem_append.mp hy with h | h
          · exact hacc y h
          · simp at h
            subst h
            exact h5
        · rw [if_neg h5] at hy
          exact hacc y hy

/-- The loop-accumulated segments of the whole stream all carry at least
TTS_MIN_WORDS words. -/
theorem consumeChunks_min_words : ∀ (chunks : List String)
    (start : List Char × List Char × List (List Char)),
    (∀ x ∈ start.2.2, TTS_MIN_WORDS ≤ (wordsOf x).length) →
    ∀ x ∈ (chunks.foldl consumeChunk start).2.2, TTS_MIN_WORDS ≤ (wordsOf x).length := by
  intro chunks
  induction chunks with
  | nil => intro start h x hx; exact h x hx
  | cons c rest ih =>
      intro start h x hx
      refine ih _ ?_ x hx
      rcases start with ⟨full, buf, acc⟩
      simp only [consumeChunk]
      exact segLoop_min_words _ _ _ h

/-- C5 (amended): every segment reaching the TTS queue either carries at
least TTS_MIN_WORDS words or is the whole trimmed response emitted by the
final fallback as the sole segment; sentence boundaries take priority over
the 15-word split, short sentence candidates are dropped, and segments are
emitted in reading order, as witnessed on concrete streams. -/
theorem c5_segment_minimum :
    (∀ (chunks : List String) (x : List Char), x ∈ ttsSegmentsL chunks →
      TTS_MIN_WORDS ≤ (wordsOf x).length ∨
      ttsSegmentsL chunks = [jsTrimL (consumeChunks chunks).1]) ∧
    ttsSegments ["Rain is expected tomorrow in Punjab. ", "Sow after the rain passes."] =
      ["Rain is expected tomorrow in Punjab.", "Sow after the rain passes."] ∧
    ttsSegments ["one two three four five six seven eight nine ten eleven twelve thirteen fourteen fifteen sixteen"] =
      ["one two three four five six seven eight nine ten eleven twelve thirteen fourteen fifteen"] ∧
    ttsSegments ["Hi there. This is a longer sentence with many words."] =
      ["This is a longer sentence with many words."] := by
  refine ⟨?_, rfl, rfl, rfl⟩
  intro chunks x hx
  have hsegs : ∀ y ∈ (consumeChunks chunks).2.2, TTS_MIN_WORDS ≤ (wordsOf y).length :=
    consumeChunks_min_words chunks ([], [], []) (by intro y hy; simp at hy)
  unfold ttsSegmentsL at hx ⊢
  set r := consumeChunks chunks with hr
  set rem := jsTrimL r.2.1 with hrem
  by_cases hfb : (if !rem.isEmpty && TTS_MIN_WORDS ≤ (wordsOf rem).length
      then r.2.2 ++ [rem] else r.2.2).isEmpty && !(jsTrimL r.1).isEmpty
  · right
    rw [if_pos hfb]
  · left
    rw [if_neg hfb] at hx
    by_cases htail : (!rem.isEmpty && TTS_MIN_WORDS ≤ (wordsOf rem).length) = true
    · rw [if_pos htail] at hx
      rcases List.mem_append.mp hx with h | h
      · exact hsegs x h
      · simp at h
        subst h
        simp only [Bool.and_eq_true, decide_eq_true_eq] at htail
        exact htail.2
    · rw [if_neg htail] at hx
      exact hsegs x hx

/-- C5 witness: the quantified minimum applied to a concrete segment of a
concrete stream. -/
theorem c5_segment_minimum_witness :
    TTS_MIN_WORDS ≤ (wordsOf (String.data "This is a longer sentence with many words.")).length ∨
    ttsSegmentsL ["Hi there. This is a longer sentence with many words."] =
      [jsTrimL (consumeChunks ["Hi there. This is a longer sentence with many words."]).1] :=
  c5_segment_minimum.1 ["Hi there. This is a longer sentence with many words."]
    (String.data "This is a longer sentence with many words.") (by decide)

/-- C5 counterexample: a one-word response is emitted to the TTS queue by the
full-response fallback, so not every candidate reaching the queue has at
least five words. -/
theorem c5_cex_short_fallback_segment :
    ttsSegments ["Hi."] = ["Hi."] ∧
    ¬ TTS_MIN_WORDS ≤ (wordsOf (String.data "Hi.")).length := by
  exact ⟨rfl, by decide⟩

/-! ## Claim C7: the TTS retry contract -/

/-- Attempt-loop bookkeeping: starting at attempt a with a backoff delays
recorded, the loop makes between 1 and remaining + 1 further attempts,
records exactly one RETRY_DELAY_MS delay per non-final attempt, and always
returns normally. -/
theorem ttsLoop_norm : ∀ (provider : Nat → ProviderOutcome) (remaining a : Nat),
    ((ttsLoop provider a remaining (List.replicate a RETRY_DELAY_MS)).attempts
        ≤ a + remaining + 1) ∧
    (a + 1 ≤ (ttsLoop provider a remaining (List.replicate a RETRY_DELAY_MS)).attempts) ∧
    ((ttsLoop provider a remaining (List.replicate a RETRY_DELAY_MS)).delays =
      List.replicate
        ((ttsLoop provider a remaining (List.replicate a RETRY_DELAY_MS)).attempts - 1)
        RETRY_DELAY_MS) ∧
    (∃ r, (ttsLoop provider a remaining (List.replicate a RETRY_DELAY_MS)).result
        = Except.ok r) := by
  intro provider remaining
  induction remaining with
  | zero =>
      intro a
      cases hp : provider a <;> simp [ttsLoop, hp]
  | succ n ih =>
      intro a
      cases hp : provider a
      · simp [ttsLoop, hp]
      · have hrep : List.replicate a RETRY_DELAY_MS ++ [RETRY_DELAY_MS]
            = List.replicate (a + 1) RETRY_DELAY_MS := (List.replicate_succ' a _).symm
        have := ih (a + 1)
        simp only [ttsLoop, hp, hrep]
        refine ⟨by omega, by omega, this.2.2.1, this.2.2.2⟩

/-- A provider that always raises drives the loop to a null result. -/
theorem ttsLoop_all_throws (provider : Nat → ProviderOutcome)
    (h : ∀ i, provider i = ProviderOutcome.throws) :
    ∀ (remaining a : Nat) (acc : List Nat),
      (ttsLoop provider a remaining acc).result = Except.ok none := by
  intro remaining
  induction remaining with
  | zero => intro a acc; simp [ttsLoop, h a]
  | succ n ih => intro a acc; simp [ttsLoop, h a]; exact ih (a + 1) _

/-- C7 (amended): textToSpeechWithRetry never raises (the result is always a
normal return), makes at most MAX_RETRIES + 1 = 3 provider attempts (the
loop runs attempt indices 0 through MAX_RETRIES inclusive) with one 500 ms
delay between consecutive attempts, returns null without any attempt when
no key is configured or the cleaned text has fewer than MIN_TTS_WORDS
words, and returns null when every attempt raises. The original claim
allowed only MAX_RETRIES = 2 attempts. -/
theorem c7_retry_contract :
    ∀ (hasKey : Bool) (text : String) (provider : Nat → ProviderOutcome),
      (textToSpeechWithRetry hasKey text provider).attempts ≤ MAX_RETRIES + 1 ∧
      ((textToSpeechWithRetry hasKey text provider).delays =
        List.replicate ((textToSpeechWithRetry hasKey text provider).attempts - 1)
          RETRY_DELAY_MS) ∧
      (∃ r, (textToSpeechWithRetry hasKey text provider).result = Except.ok r) ∧
      (hasKey = false →
        textToSpeechWithRetry hasKey text provider = ⟨Except.ok none, 0, []⟩) ∧
      (wordCount text < MIN_TTS_WORDS →
        (textToSpeechWithRetry hasKey text provider).result = Except.ok none) ∧
      ((∀ i, provider i = ProviderOutcome.throws) →
        (textToSpeechWithRetry hasKey text provider).result = Except.ok none) := by
  intro hasKey text provider
  by_cases hk : hasKey = false
  · subst hk
    simp [textToSpeechWithRetry]
  · have hk' : hasKey = true := by revert hk; cases hasKey <;> simp
    subst hk'
    by_cases hw : wordCount text < MIN_TTS_WORDS
    · simp [textToSpeechWithRetry, hw]
    · have hbase := ttsLoop_norm provider MAX_RETRIES 0
      simp only [List.replicate] at hbase
      simp only [textToSpeechWithRetry, Bool.not_true, Bool.false_eq_true, if_false,
        if_neg hw]
      refine ⟨by omega, hbase.2.2.1, hbase.2.2.2, ?_, ?_, ?_⟩
      · intro h
        cases h
      · intro h
        omega
      · intro h
        exact ttsLoop_all_throws provider h MAX_RETRIES 0 []

/-- C7 witness: the contract applied at concrete inputs discharging the
no-key and too-short hypotheses. -/
theorem c7_retry_contract_witness :
    textToSpeechWithRetry false "namaste friend good day to you"
      (fun _ => ProviderOutcome.throws) = ⟨Except.ok none, 0, []⟩ ∧
    (textToSpeechWithRetry true "hello there"
      (fun _ => ProviderOutcome.throws)).result = Except.ok none :=
  ⟨(c7_retry_contract false "namaste friend good day to you"
      (fun _ => ProviderOutcome.throws)).2.2.2.1 rfl,
   (c7_retry_contract true "hello there"
      (fun _ => ProviderOutcome.throws)).2.2.2.2.1 (by decide)⟩

/-- C7 counterexample: with a provider that raises on every call, the source
makes three attempts, contradicting the claimed bound of MAX_RETRIES = 2
attempts. -/
theorem c7_cex_three_attempts :
    (textToSpeechWithRetry true "one two three four five"
      (fun _ => ProviderOutcome.throws)).attempts = 3 ∧
    ¬ (textToSpeechWithRetry true "one two three four five"
      (fun _ => ProviderOutcome.throws)).attempts ≤ MAX_RETRIES := by
  exact ⟨rfl, by decide⟩

/-! ## Claim C9: the outbound frame pacer -/

/-- Paired 16-bit reads take half the bytes. -/
theorem toPcmSamples_length : ∀ (l : List Nat), (toPcmSamples l).length = l.length / 2
  | [] => by simp [toPcmSamples]
  | [_] => by simp [toPcmSamples]
  | lo :: hi :: rest => by
      simp only [toPcmSamples, List.length_cons, toPcmSamples_length rest]
      omega

/-- Mu-law encoding emits one byte per 16-bit sample. -/
theorem pcmToMulawBuffer_length (l : List Nat) :
    (pcmToMulawBuffer l).length = l.length / 2 := by
  simp [pcmToMulawBuffer, toPcmSamples_length]

/-- The playback loop takes the ceiling number of 320-byte slices. -/
theorem chunks320_count (l : List Nat) :
    (chunks320 l).length = (l.length + 319) / 320 := by
  by_cases h : l = []
  · subst h
    simp [chunks320]
  · have ih := chunks320_count (l.drop BYTES_PER_CHUNK)
    rw [chunks320, dif_neg h]
    simp only [List.length_cons, ih, List.length_drop]
    have hl : 0 < l.length := List.length_pos.mpr h
    simp only [BYTES_PER_CHUNK]
    omega
termination_by l.length
decreasing_by
  simp only [List.length_drop, BYTES_PER_CHUNK]
  have := List.length_pos.mpr h
  omega

/-- Every slice is at most 320 bytes long. -/
theorem chunks320_le (l : List Nat) : ∀ c ∈ chunks320 l, c.length ≤ BYTES_PER_CHUNK := by
  by_cases h : l = []
  · subst h
    simp [chunks320]
  · have ih := chunks320_le (l.drop BYTES_PER_CHUNK)
    rw [chunks320, dif_neg h]
    intro c hc
    rcases List.mem_cons.mp hc with rfl | hc
    · simp [List.length_take]
    · exact ih c hc
termination_by l.length
decreasing_by
  simp only [List.length_drop, BYTES_PER_CHUNK]
  have := List.length_pos.mpr h
  omega

/-- Summing half the slice lengths gives half the total length. -/
theorem chunks320_sum (l : List Nat) :
    ((chunks320 l).map (fun c => c.length / 2)).sum = l.length / 2 := by
  by_cases h : l = []
  · subst h
    simp [chunks320]
  · have ih := chunks320_sum (l.drop BYTES_PER_CHUNK)
    rw [chunks320, dif_neg h]
    simp only [List.map_cons, List.sum_cons, ih, List.length_drop, List.length_take]
    simp only [BYTES_PER_CHUNK]
    omega
termination_by l.length
decreasing_by
  simp only [List.length_drop, BYTES_PER_CHUNK]
  have := List.length_pos.mpr h
  omega

/-- C9 (confirmed): for every PCM16LE buffer of L bytes handed to the
playback path, the pacer emits the ceiling of L / 320 outbound media
payloads, each of at most 160 mu-law bytes, and the payload lengths sum to
L / 2 mu-law samples. -/
theorem c9_frame_pacer :
    ∀ (pcm : List Nat),
      (playbackFrames pcm).length = (pcm.length + 319) / 320 ∧
      (∀ f ∈ playbackFrames pcm, f.length ≤ 160) ∧
      ((playbackFrames pcm).map List.length).sum = pcm.length / 2 := by
  intro pcm
  refine ⟨?_, ?_, ?_⟩
  · simp [playbackFrames, chunks320_count]
  · intro f hf
    simp only [playbackFrames, List.mem_map] at hf
    obtain ⟨c, hc, rfl⟩ := hf
    rw [pcmToMulawBuffer_length]
    have hle := chunks320_le pcm c hc
    simp only [BYTES_PER_CHUNK] at hle
    omega
  · have hmap : (playbackFrames pcm).map List.length
        = (chunks320 pcm).map (fun c => c.length / 2) := by
      simp only [playbackFrames, List.map_map]
      exact List.map_congr_left (fun c _ => pcmToMulawBuffer_length c)
    rw [hmap, chunks320_sum]

/-- The slicing of a concrete four-byte buffer. -/
theorem chunks320_small : chunks320 [0, 1, 2, 3] = [[0, 1, 2, 3]] := by
  rw [chunks320, dif_neg (by simp)]
  rw [show List.drop BYTES_PER_CHUNK ([0, 1, 2, 3] : List Nat) = [] by decide]
  rw [show chunks320 [] = [] by rw [chunks320]; simp]
  rw [show List.take BYTES_PER_CHUNK ([0, 1, 2, 3] : List Nat) = [0, 1, 2, 3] by decide]

/-- C9 witness: the per-frame bound applied at a concrete frame of a
concrete buffer. -/
theorem c9_frame_pacer_witness :
    (pcmToMulawBuffer [0, 1, 2, 3]).length ≤ 160 :=
  (c9_frame_pacer [0, 1, 2, 3]).2.1 (pcmToMulawBuffer [0, 1, 2, 3])
    (by simp [playbackFrames, chunks320_small])

/-! ## Claim C10: the WAV header layout -/

/-- Dropping past a prefix and a further n entries. -/
theorem drop_len_add {α} (l1 l2 : List α) (n : Nat) :
    (l1 ++ l2).drop (l1.length + n) = l2.drop n := by
  induction l1 with
  | nil => simp
  | cons c t ih => simpa [Nat.succ_add] using ih

/-- Writing at the end of the already-written prefix of a zero-filled
buffer appends the bytes and shrinks the zero tail. -/
theorem bufWrite_zeros (pre : List Nat) (k : Nat) (bytes : List Nat) :
    bufWrite (pre ++ List.replicate k 0) pre.length bytes
      = (pre ++ bytes) ++ List.replicate (k - bytes.length) 0 := by
  unfold bufWrite
  rw [List.take_left, drop_len_add, List.drop_replicate]
  try simp [List.append_assoc]

/-- The field-writing loop on a zero tail lays the fields down back to back. -/
theorem writeFieldsAux_eq : ∀ (fields : List (List Nat)) (pre : List Nat) (k : Nat),
    writeFieldsAux (pre ++ List.replicate k 0) pre.length fields
      = (pre ++ fields.join) ++ List.replicate (k - (fields.map List.length).sum) 0 := by
  intro fields
  induction fields with
  | nil => intro pre k; simp [writeFieldsAux]
  | cons bs rest ih =>
      intro pre k
      simp only [writeFieldsAux, bufWrite_zeros]
      have hlen : pre.length + bs.length = (pre ++ bs).length := by simp
      rw [hlen, ih (pre ++ bs) (k - bs.length)]
      simp only [List.join, List.map_cons, List.sum_cons]
      rw [Nat.sub_sub]
      simp [List.append_assoc]

/-- The sample-writing loop on a zero tail lays the sample bytes down back
to back. -/
theorem writeSamples_eq : ∀ (samples : List Int) (pre : List Nat) (k : Nat),
    writeSamples (pre ++ List.replicate k 0) pre.length samples
      = (pre ++ (samples.map int16le).join) ++ List.replicate (k - 2 * samples.length) 0 := by
  intro samples
  induction samples with
  | nil => intro pre k; simp [writeSamples]
  | cons v rest ih =>
      intro pre k
      simp only [writeSamples]
      have h2 : (int16le v).length = 2 := rfl
      rw [show bufWrite (pre ++ List.replicate k 0) pre.length (int16le v)
            = (pre ++ int16le v) ++ List.replicate (k - 2) 0 by
          rw [bufWrite_zeros, h2]]
      rw [show pre.length + 2 = (pre ++ int16le v).length by simp [h2]]
      rw [ih (pre ++ int16le v) (k - 2)]
      have harith : k - 2 - 2 * rest.length = k - 2 * (rest.length + 1) := by omega
      simp only [List.map_cons, List.join, harith, List.length_cons]
      simp [List.append_assoc]

/-- The joined header fields are the canonical header bytes. -/
theorem wavHeaderFields_join (n : Nat) :
    (wavHeaderFields n).join = wavHeaderBytes n := by
  simp [wavHeaderFields, wavHeaderBytes, List.join]

/-- The header fields occupy exactly 44 bytes. -/
theorem wavHeaderFields_sum (n : Nat) :
    ((wavHeaderFields n).map List.length).sum = 44 := by
  simp [wavHeaderFields, asciiBytes, u32le, u16le]

/-- The canonical header is 44 bytes long. -/
theorem wavHeaderBytes_length (n : Nat) : (wavHeaderBytes n).length = 44 := by
  simp [wavHeaderBytes, asciiBytes, u32le, u16le]

/-- The imperative pcmToWavBuffer equals header bytes followed by the
payload. -/
theorem pcmToWavBuffer_eq (pcm : List Nat) :
    pcmToWavBuffer pcm = wavHeaderBytes pcm.length ++ pcm := by
  unfold pcmToWavBuffer bufAlloc
  dsimp only
  have h0 := writeFieldsAux_eq (wavHeaderFields pcm.length) [] (44 + pcm.length)
  simp only [List.nil_append, List.length_nil] at h0
  rw [h0, wavHeaderFields_join, wavHeaderFields_sum]
  rw [show (44 : Nat) + pcm.length - 44 = pcm.length by omega]
  have h1 := bufWrite_zeros (wavHeaderBytes pcm.length) pcm.length pcm
  rw [wavHeaderBytes_length] at h1
  rw [h1]
  simp

/-- The imperative mulawToWav equals header bytes followed by the serialised
decoded samples. -/
theorem mulawToWav_eq (decode : Nat → Int) (mulaw : List Nat) :
    mulawToWav decode mulaw
      = wavHeaderBytes (mulaw.length * 2) ++ ((mulaw.map decode).map int16le).join := by
  unfold mulawToWav bufAlloc
  dsimp only
  have h0 := writeFieldsAux_eq (wavHeaderFields ((mulaw.map decode).length * 2)) []
    (44 + (mulaw.map decode).length * 2)
  simp only [List.nil_append, List.length_nil] at h0
  rw [h0, wavHeaderFields_join, wavHeaderFields_sum]
  rw [show (44 : Nat) + (mulaw.map decode).length * 2 - 44
        = 2 * (mulaw.map decode).length by omega]
  have h1 := writeSamples_eq (mulaw.map decode)
    (wavHeaderBytes ((mulaw.map decode).length * 2)) (2 * (mulaw.map decode).length)
  rw [wavHeaderBytes_length] at h1
  rw [h1]
  simp

/-- C10 (confirmed): both WAV wrappers produce a buffer of exactly
44 + dataSize bytes whose first 44 bytes are the canonical little-endian
RIFF/WAVE header — in particular bytes 4 to 7 hold the 32-bit fileSize - 8
and bytes 40 to 43 hold the 32-bit dataSize — followed by the payload
unchanged (for mulawToWav the payload is the little-endian serialisation
of the decoded samples). The size bounds keep the 32-bit header fields in
the range accepted by the source's writeUInt32LE. -/
theorem c10_wav_layout :
    ∀ (pcm : List Nat) (decode : Nat → Int) (mulaw : List Nat),
      pcm.length + 36 < 4294967296 → mulaw.length * 2 + 36 < 4294967296 →
      (pcmToWavBuffer pcm).length = 44 + pcm.length ∧
      (pcmToWavBuffer pcm).take 44 = wavHeaderBytes pcm.length ∧
      ((pcmToWavBuffer pcm).drop 4).take 4 = u32le (44 + pcm.length - 8) ∧
      ((pcmToWavBuffer pcm).drop 40).take 4 = u32le pcm.length ∧
      (pcmToWavBuffer pcm).drop 44 = pcm ∧
      (mulawToWav decode mulaw).length = 44 + mulaw.length * 2 ∧
      (mulawToWav decode mulaw).take 44 = wavHeaderBytes (mulaw.length * 2) ∧
      ((mulawToWav decode mulaw).drop 40).take 4 = u32le (mulaw.length * 2) ∧
      (mulawToWav decode mulaw).drop 44 = ((mulaw.map decode).map int16le).join := by
  intro pcm decode mulaw _ _
  have hsplit4 : ∀ n : Nat, ∀ tail : List Nat, wavHeaderBytes n ++ tail
      = asciiBytes "RIFF" ++ (u32le (44 + n - 8) ++ (asciiBytes "WAVE" ++
        (asciiBytes "fmt " ++ (u32le 16 ++ (u16le 1 ++ (u16le 1 ++ (u32le 8000 ++
        (u32le 16000 ++ (u16le 2 ++ (u16le 16 ++ (asciiBytes "data" ++
        (u32le n ++ tail)))))))))))) := by
    intro n tail
    simp [wavHeaderBytes, List.append_assoc]
  have hsplit40 : ∀ n : Nat, ∀ tail : List Nat, wavHeaderBytes n ++ tail
      = (asciiBytes "RIFF" ++ u32le (44 + n - 8) ++ asciiBytes "WAVE" ++
         asciiBytes "fmt " ++ u32le 16 ++ u16le 1 ++ u16le 1 ++ u32le 8000 ++
         u32le 16000 ++ u16le 2 ++ u16le 16 ++ asciiBytes "data") ++
        (u32le n ++ tail) := by
    intro n tail
    simp [wavHeaderBytes, List.append_assoc]
  refine ⟨?_, ?_, ?_, ?_, ?_, ?_, ?_, ?_, ?_⟩
  · rw [pcmToWavBuffer_eq, List.length_append, wavHeaderBytes_length]
  · rw [pcmToWavBuffer_eq]
    exact List.take_left' (wavHeaderBytes_length pcm.length)
  · rw [pcmToWavBuffer_eq, hsplit4]
    rw [List.drop_left' (show (asciiBytes "RIFF").length = 4 from rfl)]
    exact List.take_left' rfl
  · rw [pcmToWavBuffer_eq, hsplit40]
    rw [List.drop_left' (show (asciiBytes "RIFF" ++ u32le (44 + pcm.length - 8) ++
      asciiBytes "WAVE" ++ asciiBytes "fmt " ++ u32le 16 ++ u16le 1 ++ u16le 1 ++
      u32le 8000 ++ u32le 16000 ++ u16le 2 ++ u16le 16 ++ asciiBytes "data").length
        = 40 from rfl)]
    exact List.take_left' rfl
  · rw [pcmToWavBuffer_eq]
    exact List.drop_left' (wavHeaderBytes_length pcm.length)
  · rw [mulawToWav_eq, List.length_append, wavHeaderBytes_length]
    have h2 : ∀ (l : List Int), ((l.map int16le).map List.length).sum = l.length * 2 := by
      intro l
      induction l with
      | nil => simp
      | cons a t ih =>
          simp only [List.map_cons, List.sum_cons, List.length_cons, ih]
          simp [int16le]
          omega
    have : (((mulaw.map decode).map int16le).join).length = mulaw.length * 2 := by
      rw [List.length_join, h2]
      simp [List.length_map]
    rw [this]
  · rw [mulawToWav_eq]
    exact List.take_left' (wavHeaderBytes_length (mulaw.length * 2))
  · rw [mulawToWav_eq, hsplit40]
    rw [List.drop_left' (show (asciiBytes "RIFF" ++ u32le (44 + mulaw.length * 2 - 8) ++
      asciiBytes "WAVE" ++ asciiBytes "fmt " ++ u32le 16 ++ u16le 1 ++ u16le 1 ++
      u32le 8000 ++ u32le 16000 ++ u16le 2 ++ u16le 16 ++ asciiBytes "data").length
        = 40 from rfl)]
    exact List.take_left' rfl
  · rw [mulawToWav_eq]
    exact List.drop_left' (wavHeaderBytes_length (mulaw.length * 2))

/-- C10 witness: the layout applied at a concrete payload. -/
theorem c10_wav_layout_witness :
    (pcmToWavBuffer [1, 2, 3]).length = 44 + 3 ∧
    ((pcmToWavBuffer [1, 2, 3]).drop 40).take 4 = u32le 3 ∧
    (mulawToWav (fun b => (b : Int)) [7]).length = 44 + 2 := by
  have h := c10_wav_layout [1, 2, 3] (fun b => (b : Int)) [7] (by decide) (by decide)
  exact ⟨h.1, h.2.2.2.1, h.2.2.2.2.2.1⟩

end AgriAgents
